import Mathlib

/-!
Verification of the debugger-session client in `src/typescript/src/closure.ts`.

The file shallowly embeds the four components of the source file:
* `getNextPausedEvent` — the one-shot pause-event waiter (Promise + `session.once`);
* `handleBreakpointHit` — the closure-scope variable extractor;
* `extractSourceMapUrl` / `getSourceMapJSON` — the inline source-map codec;
* `resolveScriptIdToFile` / `resolveMultipleScriptIds` — the script-source resolver.

JavaScript conventions used by the embedding: a thrown exception becomes
`Except.error`; `undefined` / `null` results become `Option.none`; an async
function that catches every exception internally becomes a total function.
-/

deriving instance DecidableEq for Except

namespace Closure

/-- Primitive JavaScript values, the payloads stored in the variable snapshot.
JS `null` is a value distinct from `undefined`; `undefined` is modelled by
`Option.none` at each use site. -/
inductive JSValue where
  | null
  | bool (b : Bool)
  | num (n : Int)
  | str (s : String)
deriving DecidableEq, Repr

/-- Runtime faults of the JavaScript semantics that the source code can throw.
`callFrames[0]` on an empty array yields `undefined`, and reading
`.scopeChain` from it throws a `TypeError`. -/
inductive JSError where
  | typeError
deriving DecidableEq, Repr

/-- One `logger.error` call: the fixed message string and the stringified
error detail. -/
structure LogEntry where
  msg : String
  detail : String
deriving DecidableEq, Repr

/-- CDP `Runtime.RemoteObject`: an optional remote handle (`objectId`) and an
optional primitive value (`value`). An object- or function-valued result has
an `objectId` but no primitive `value`. -/
structure RemoteObject where
  objectId : Option String
  value : Option JSValue
deriving DecidableEq, Repr

/-- CDP `Debugger.Scope`: a kind tag (`"closure"`, `"local"`, `"global"`, …)
and the scope's backing object. -/
structure Scope where
  type : String
  object : RemoteObject
deriving DecidableEq, Repr

/-- CDP `Debugger.CallFrame`, restricted to the field the source reads. -/
structure CallFrame where
  scopeChain : List Scope
deriving DecidableEq, Repr

/-- The `params` payload of a `Debugger.paused` notification. -/
structure PausedEventData where
  callFrames : List CallFrame
deriving DecidableEq, Repr

/-- `inspector.InspectorNotification<Debugger.PausedEventDataType>`. -/
structure BreakpointHitEvent where
  params : PausedEventData
deriving DecidableEq, Repr

/-- CDP `Runtime.PropertyDescriptor`, restricted to the fields the source
reads: the property name and the optional `RemoteObject` holding its value
(absent for accessor-only or unresolved properties). -/
structure PropertyDescriptor where
  name : String
  value : Option RemoteObject
deriving DecidableEq, Repr

/-- The parameter object of the `Runtime.getProperties` request, exactly the
fields the source passes. -/
structure GetPropertiesParams where
  objectId : Option String
  ownProperties : Bool
  accessorPropertiesOnly : Bool
  generatePreview : Bool
deriving DecidableEq, Repr

/-- The result object of `Runtime.getProperties`: its `result` field is the
list of property descriptors. -/
structure GetPropertiesResult where
  result : List PropertyDescriptor
deriving DecidableEq, Repr

/-- The debugger session as seen by `handleBreakpointHit`: the
`session.post('Runtime.getProperties', …)` request, which either returns a
result or rejects with an error message. -/
structure Session where
  postGetProperties : GetPropertiesParams → Except String GetPropertiesResult

/-! ### The variable snapshot (`Record<string, any>`)

A JS object used as a map: an association list with unique keys, where
assignment to an existing key replaces its value in place and assignment to
a fresh key appends. -/

/-- The `variableValues` accumulator: a JS `Record<string, any>`. -/
abbrev VarRecord := List (String × JSValue)

/-- JS property assignment `r[k] = v`: overwrite in place if `k` is already
a key, else append. -/
def recordSet (r : VarRecord) (k : String) (v : JSValue) : VarRecord :=
  if r.any (fun p => p.1 == k) then
    r.map (fun p => if p.1 == k then (k, v) else p)
  else
    r ++ [(k, v)]

/-- JS property read `r[k]`. -/
def recordGet (r : VarRecord) (k : String) : Option JSValue :=
  (r.find? (fun p => p.1 == k)).map (fun p => p.2)

/-! ### `handleBreakpointHit` -/

/-- The captured primitive value of a descriptor: defined exactly when the
source's guard `prop.value && prop.value.value !== undefined` passes. -/
def descriptorCaptured (p : PropertyDescriptor) : Option JSValue :=
  p.value.bind RemoteObject.value

/-- The inner loop of `handleBreakpointHit`:
`for (const prop of result.result) { if (prop.value && prop.value.value !== undefined) variableValues[prop.name] = prop.value.value }`. -/
def processProps (props : List PropertyDescriptor) (acc : VarRecord) : VarRecord :=
  match props with
  | [] => acc
  | prop :: rest =>
    match prop.value with
    | some v =>
      match v.value with
      | some pv => processProps rest (recordSet acc prop.name pv)
      | none => processProps rest acc
    | none => processProps rest acc

/-- The outer loop of `handleBreakpointHit` over the scope chain, threading
the `variableValues` accumulator and the log of failed
`Runtime.getProperties` requests (`logger.error('Failed to get properties', err)`).
A failed request is caught (`.catch(… => null)`) and the scope skipped. -/
def processScopes (session : Session) (acc : VarRecord) (logs : List LogEntry) :
    List Scope → VarRecord × List LogEntry
  | [] => (acc, logs)
  | scope :: rest =>
    if scope.type == "closure" then
      match session.postGetProperties ⟨scope.object.objectId, false, false, false⟩ with
      | .ok result => processScopes session (processProps result.result acc) logs rest
      | .error err =>
        processScopes session acc (logs ++ [⟨"Failed to get properties", err⟩]) rest
    else
      processScopes session acc logs rest

/-- `handleBreakpointHit(session, { params })`: takes `callFrames[0].scopeChain`
(on an empty frame list this throws a `TypeError`, since `callFrames[0]` is
`undefined`), then walks the scope chain. Returns the snapshot together with
the error log. -/
def handleBreakpointHit (session : Session) (event : BreakpointHitEvent) :
    Except JSError (VarRecord × List LogEntry) :=
  match event.params.callFrames with
  | [] => .error JSError.typeError
  | frame :: _ => .ok (processScopes session [] [] frame.scopeChain)

/-! ### `extractSourceMapUrl`

The source matches `/\/\/[#@]\s*sourceMappingURL=(.+)$/m` against the file
content and post-processes the captured group. The embedding models the
JavaScript regex engine's leftmost-match rule: try the pattern at each start
index from 0 and take the first index where it matches. -/

/-- JavaScript regex `\s` (the whitespace class), restricted to the common
members: ASCII whitespace, NBSP, BOM and the Unicode line separators. -/
def jsWhitespace (c : Char) : Bool :=
  c == ' ' || c == '\t' || c == '\n' || c == '\r' || c == '\x0b' || c == '\x0c' ||
  c == ' ' || c == ' ' || c == ' ' || c == '﻿'

/-- JavaScript `LineTerminator`s: the characters `.` does not match and the
positions where multiline `$` matches. -/
def lineTerminator (c : Char) : Bool :=
  c == '\n' || c == '\r' || c == ' ' || c == ' '

/-- The literal part of the marker pattern, `sourceMappingURL=`. -/
def sourceMappingURLKey : List Char := "sourceMappingURL=".toList

/-- Attempt to match `\/\/[#@]\s*sourceMappingURL=(.+)$` (multiline) at the
start of `cs`; on success return the captured group. `\s*` greedily consumes
whitespace (no shorter consumption can succeed, as `s` is not whitespace);
`(.+)$` captures the nonempty remainder of the line. -/
def matchMarkerAt (cs : List Char) : Option (List Char) :=
  match cs with
  | '/' :: '/' :: c :: rest =>
    if c == '#' || c == '@' then
      let afterWs := rest.dropWhile jsWhitespace
      if sourceMappingURLKey.isPrefixOf afterWs then
        let captured :=
          (afterWs.drop sourceMappingURLKey.length).takeWhile (fun ch => !(lineTerminator ch))
        if captured.isEmpty then none else some captured
      else none
    else none
  | _ => none

/-- `String.prototype.match` without the `g` flag: the leftmost position
where the pattern matches wins. -/
def findFirstMatch : List Char → Option (List Char)
  | [] => none
  | c :: rest =>
    match matchMarkerAt (c :: rest) with
    | some g => some g
    | none => findFirstMatch rest

/-- The separator literal `'base64,'`. -/
def base64Marker : List Char := "base64,".toList

/-- Index of the first occurrence of `pat` in `s` (JS `indexOf`), `none` when
absent. -/
def firstOcc (pat : List Char) : List Char → Option Nat
  | [] => if pat.isPrefixOf ([] : List Char) then some 0 else none
  | c :: rest =>
    if pat.isPrefixOf (c :: rest) then some 0
    else (firstOcc pat rest).map (fun n => n + 1)

/-- JS `v.split(pat)[1]` for a nonempty separator: the segment after the
first occurrence of `pat`, up to (and not including) the next occurrence. -/
def splitSecondOn (pat : List Char) (v : List Char) : List Char :=
  match firstOcc pat v with
  | none => []
  | some i =>
    let rest := v.drop (i + pat.length)
    match firstOcc pat rest with
    | none => rest
    | some j => rest.take j

/-- Post-processing of the captured group:
`if (match[1].indexOf('base64,') > -1) return match[1].split('base64,')[1]; return match[1]`. -/
def markerTransform (g : List Char) : List Char :=
  if (firstOcc base64Marker g).isSome then splitSecondOn base64Marker g else g

/-- `extractSourceMapUrl(fileContent)`: first regex match, post-processed;
`null` when the pattern matches nowhere. -/
def extractSourceMapUrl (fileContent : String) : Option String :=
  match findFirstMatch fileContent.toList with
  | some g => some (String.mk (markerTransform g))
  | none => none

/-! ### `resolveScriptIdToFile` / `resolveMultipleScriptIds` -/

/-- The debugger session as seen by the script resolver: the
`session.post('Debugger.getScriptSource', { scriptId })` request, returning
the script source text or rejecting. -/
structure ScriptSession where
  getScriptSource : String → Except String String

/-- `resolveScriptIdToFile`: issues the request inside `try { … } catch`;
a rejection is logged and swallowed (`return` with no value, i.e.
`undefined`), so the function itself never throws. -/
def resolveScriptIdToFile (session : ScriptSession) (scriptId : String) : Option String :=
  match session.getScriptSource scriptId with
  | .ok result => some result
  | .error _ => none

/-- One entry of the array built by `resolveMultipleScriptIds`: the resolved
source, the `undefined` pushed when `resolveScriptIdToFile` returned nothing,
or the `{ scriptId, filePath: 'Error: ' + message }` record built in the
`catch` branch. -/
inductive ScriptLookupResult where
  | resolved (source : String)
  | absent
  | failureRecord (scriptId : String) (filePath : String)
deriving DecidableEq, Repr

/-- Whether an entry is the synthetic failure record for the given id. -/
def ScriptLookupResult.isFailureFor (r : ScriptLookupResult) (id : String) : Bool :=
  match r with
  | .failureRecord sid _ => sid == id
  | _ => false

/-- The loop body of `resolveMultipleScriptIds` for one id. The `catch`
branch of the source would push `ScriptLookupResult.failureRecord`, but it is
unreachable: `resolveScriptIdToFile` catches every rejection internally and
resolves with `undefined`, which the loop pushes as `absent`. -/
def scriptLookup (session : ScriptSession) (scriptId : String) : ScriptLookupResult :=
  match resolveScriptIdToFile session scriptId with
  | some result => .resolved result
  | none => .absent

/-- `resolveMultipleScriptIds`: the sequential loop pushing one entry per
requested id, in request order. -/
def resolveMultipleScriptIds (session : ScriptSession) (scriptIds : List String) :
    List ScriptLookupResult :=
  scriptIds.map (scriptLookup session)

/-- `extractSourceMapUrl` as claim C4 words it: the value of the first marker,
and, when it contains `base64,`, *the whole portion after that marker*
(rather than the source's `split('base64,')[1]`). -/
def extractSourceMapUrlClaimed (fileContent : String) : Option String :=
  match findFirstMatch fileContent.toList with
  | some g =>
    some (String.mk (match firstOcc base64Marker g with
      | some i => g.drop (i + base64Marker.length)
      | none => g))
  | none => none

/-! ### The pause-event waiter (`getNextPausedEvent`) -/

/-- The state of the Promise created by `getNextPausedEvent`: `none` while
pending, `some ev` once resolved. -/
structure PromiseState where
  settledWith : Option BreakpointHitEvent
deriving DecidableEq, Repr

/-- `resolve(params)`: settles a pending promise; a settled JS promise
ignores further `resolve` calls. -/
def PromiseState.resolve (p : PromiseState) (ev : BreakpointHitEvent) : PromiseState :=
  match p.settledWith with
  | some _ => p
  | none => ⟨some ev⟩

/-- The observable state of one `getNextPausedEvent` call: whether the
listener passed to `session.once('Debugger.paused', …)` is still registered,
and the promise the call returned. -/
structure WaiterState where
  onceRegistered : Bool
  promise : PromiseState
deriving DecidableEq, Repr

/-- `getNextPausedEvent(session)`: registers one `once` listener on the
session and returns a pending promise. -/
def getNextPausedEvent : WaiterState := ⟨true, ⟨none⟩⟩

/-- The session emits one `Debugger.paused` notification: a `once` listener
is deregistered at its first invocation, and the handler resolves the
promise with the event's params. -/
def emitPaused (st : WaiterState) (ev : BreakpointHitEvent) : WaiterState :=
  if st.onceRegistered then ⟨false, st.promise.resolve ev⟩ else st

/-- The session emits a sequence of pause events in order. -/
def emitAll (st : WaiterState) (evs : List BreakpointHitEvent) : WaiterState :=
  evs.foldl emitPaused st

/-- How many listeners the call has currently registered on the session. -/
def listenerCount (st : WaiterState) : Nat :=
  if st.onceRegistered then 1 else 0

/-! ### Base64 and `getSourceMapJSON` -/

/-- The base64 alphabet, in value order. -/
def base64Alphabet : List Char :=
  "ABCDEFGHIJKLMNOPQRSTUVWXYZabcdefghijklmnopqrstuvwxyz0123456789+/".toList

/-- The character encoding a 6-bit group. -/
def sextetChar (n : Nat) : Char := base64Alphabet.getD n '?'

/-- Index of a character in a list, used to invert the alphabet. -/
def charIndex (c : Char) : List Char → Option Nat
  | [] => none
  | d :: rest => if d == c then some 0 else (charIndex c rest).map (fun n => n + 1)

/-- The 6-bit group a character encodes; `none` outside the alphabet (in
particular for `'='`). -/
def sextetOf (c : Char) : Option Nat := charIndex c base64Alphabet

/-- Base64-encode a byte sequence (3 bytes → 4 characters, `'='`-padded). -/
def encodeBase64 : List Nat → List Char
  | [] => []
  | [a] => [sextetChar (a / 4), sextetChar (a % 4 * 16), '=', '=']
  | [a, b] =>
    [sextetChar (a / 4), sextetChar (a % 4 * 16 + b / 16), sextetChar (b % 16 * 4), '=']
  | a :: b :: c :: rest =>
    sextetChar (a / 4) :: sextetChar (a % 4 * 16 + b / 16) ::
      sextetChar (b % 16 * 4 + c / 64) :: sextetChar (c % 64) :: encodeBase64 rest

/-- The 6-bit value Node's base64 decoder assigns to a character: the base64
alphabet plus the base64url variants `'-'` and `'_'`; every other character
(whitespace, `'='`, punctuation, …) is ignored by the decoder. -/
def decodeSextet (c : Char) : Option Nat :=
  if c == '-' then some 62 else if c == '_' then some 63 else sextetOf c

/-- Reassemble bytes from a stream of 6-bit groups: each full group of four
yields three bytes; a partial trailing group of three yields two bytes, of
two yields one byte (surplus low bits discarded), and a lone trailing sextet
yields nothing. -/
def sextetsToBytes : List Nat → List Nat
  | s1 :: s2 :: s3 :: s4 :: rest =>
    (s1 * 4 + s2 / 16) :: (s2 % 16 * 16 + s3 / 4) :: (s3 % 4 * 64 + s4) ::
      sextetsToBytes rest
  | [s1, s2, s3] => [s1 * 4 + s2 / 16, s2 % 16 * 16 + s3 / 4]
  | [s1, s2] => [s1 * 4 + s2 / 16]
  | _ => []

/-- The model of `Buffer.from(x, 'base64')`: Node's decoder never fails; it
ignores all characters outside the (url-extended) alphabet and decodes the
remaining sextet stream, including a partial trailing group. Canonical
padded base64 decodes to exactly its payload bytes. -/
def decodeBase64 (cs : List Char) : List Nat :=
  sextetsToBytes (cs.filterMap decodeSextet)

/-- Canonical base64 syntax: full groups of four alphabet characters, the
last group optionally carrying one or two `'='` paddings. The claim's
"invalid base64" is the complement of this predicate. -/
def isCanonicalBase64 : List Char → Bool
  | [] => true
  | [c1, c2, c3, c4] =>
    (sextetOf c1).isSome && (sextetOf c2).isSome &&
      (((sextetOf c3).isSome && ((sextetOf c4).isSome || c4 == '=')) ||
        (c3 == '=' && c4 == '='))
  | c1 :: c2 :: c3 :: c4 :: rest =>
    (sextetOf c1).isSome && (sextetOf c2).isSome && (sextetOf c3).isSome &&
      (sextetOf c4).isSome && isCanonicalBase64 rest
  | _ => false

/-- Structured JSON documents, the shape of a parsed source map. -/
inductive Json where
  | null
  | bool (b : Bool)
  | num (n : Int)
  | str (s : String)
  | arr (elems : List Json)
  | obj (fields : List (String × Json))

/-- The platform JSON codec (`JSON.stringify` / `JSON.parse`), an external
collaborator of `getSourceMapJSON`; `parse` rejects invalid syntax. -/
structure JsonCodec where
  stringify : Json → String
  parse : String → Except String Json

/-- Bytes to text (`Buffer#toString`); the model identifies a text with its
code-point sequence. -/
def bytesToString (bs : List Nat) : String := String.mk (bs.map Char.ofNat)

/-- Text to bytes, the step performed when a document is encoded to base64
text. -/
def stringToBytes (s : String) : List Nat := s.toList.map Char.toNat

/-- Base64-encode a text. -/
def encodeToBase64 (s : String) : String := String.mk (encodeBase64 (stringToBytes s))

/-- `getSourceMapJSON(base64SourceMap)`: decode the base64 payload
(`Buffer.from` never fails) and parse the resulting text; a parse failure
inside the `try` block is caught, logged and turned into `null`. -/
def getSourceMapJSON (codec : JsonCodec) (base64SourceMap : String) : Option Json :=
  match codec.parse (bytesToString (decodeBase64 base64SourceMap.toList)) with
  | .ok doc => some doc
  | .error _ => none

/-- A miniature codec for concrete instantiation: it serializes and parses
only the documents `null` and `{}`. -/
def miniCodec : JsonCodec :=
  ⟨fun d => match d with | .obj [] => "{}" | _ => "null",
   fun s =>
     if s = "{}" then .ok (Json.obj [])
     else if s = "null" then .ok Json.null
     else .error "parse error"⟩

/-! ### Spec-side merge (the wording of claim C6) -/

/-- `true` iff the request succeeded; `Bool`-valued so hypotheses about
session behaviour stay decidable at concrete inputs. -/
def isOkB {ε α : Type} (e : Except ε α) : Bool :=
  match e with
  | .ok _ => true
  | .error _ => false

/-- The property descriptors of the closure-kind scopes, in scope-chain
order (a failed request contributes none). -/
def specCloseDescs (session : Session) (scopes : List Scope) : List PropertyDescriptor :=
  (scopes.filter (fun s => s.type == "closure")).flatMap (fun s =>
    match session.postGetProperties ⟨s.object.objectId, false, false, false⟩ with
    | .ok r => r.result
    | .error _ => [])

/-- One step of the spec's last-write-wins merge: insert `name → value` when
the descriptor's captured value is defined, else leave the snapshot alone. -/
def specMergeStep (acc : VarRecord) (p : PropertyDescriptor) : VarRecord :=
  match descriptorCaptured p with
  | some v => recordSet acc p.name v
  | none => acc

/-- The spec's snapshot: the last-write-wins merge, in scope-chain order, of
the defined-valued descriptors of the closure scopes. -/
def specSnapshot (session : Session) (scopes : List Scope) : VarRecord :=
  (specCloseDescs session scopes).foldl specMergeStep []

/-! ### Concrete sessions used to instantiate the theorems -/

/-- A session whose every getProperties request succeeds with no
properties. -/
def emptySession : Session := ⟨fun _ => .ok ⟨[]⟩⟩

/-- A session returning a single object-valued property: a remote reference
(`objectId`) with no primitive `value`. -/
def objectPropSession : Session :=
  ⟨fun _ => .ok ⟨[⟨"f", some ⟨some "obj1", none⟩⟩]⟩⟩

/-- A session with two closure-scope objects: `s1` yields `x = 1, y = 2`;
any other object yields `x = 3` and an object-valued `z`. -/
def overrideSession : Session :=
  ⟨fun p =>
    if p.objectId = some "s1" then
      .ok ⟨[⟨"x", some ⟨none, some (JSValue.num 1)⟩⟩, ⟨"y", some ⟨none, some (JSValue.num 2)⟩⟩]⟩
    else
      .ok ⟨[⟨"x", some ⟨none, some (JSValue.num 3)⟩⟩, ⟨"z", some ⟨some "o", none⟩⟩]⟩⟩

/-- A session that rejects getProperties exactly for object id `"bad"`. -/
def failingPropSession : Session :=
  ⟨fun p =>
    if p.objectId = some "bad" then .error "network error"
    else .ok ⟨[⟨"x", some ⟨none, some (JSValue.num 1)⟩⟩]⟩⟩

/-- A script session that fails exactly for script id `"b"`. -/
def demoScriptSession : ScriptSession :=
  ⟨fun id => if id = "b" then .error "boom" else .ok ("source of " ++ id)⟩

/-! ### Facts about the first-match scan -/

theorem matchMarkerAt_nil : matchMarkerAt [] = none := rfl

theorem matchMarkerAt_drop_of_le (cs : List Char) (i : Nat) (h : cs.length ≤ i) :
    matchMarkerAt (cs.drop i) = none := by
  rw [List.drop_eq_nil_of_le h, matchMarkerAt_nil]

theorem findFirstMatch_eq_none (cs : List Char)
    (h : ∀ i, matchMarkerAt (cs.drop i) = none) : findFirstMatch cs = none := by
  induction cs with
  | nil => rfl
  | cons c rest ih =>
    have h0 := h 0
    simp only [List.drop_zero] at h0
    simp only [findFirstMatch, h0]
    exact ih (fun i => h (i + 1))

theorem findFirstMatch_eq_first (cs : List Char) (i : Nat) (v : List Char)
    (hi : matchMarkerAt (cs.drop i) = some v)
    (hfirst : ∀ k, k < i → matchMarkerAt (cs.drop k) = none) :
    findFirstMatch cs = some v := by
  induction cs generalizing i with
  | nil =>
    rw [List.drop_nil] at hi
    exact absurd hi (by simp [matchMarkerAt_nil])
  | cons c rest ih =>
    cases i with
    | zero =>
      simp only [List.drop_zero] at hi
      simp only [findFirstMatch, hi]
    | succ i =>
      have h0 := hfirst 0 (Nat.succ_pos i)
      simp only [List.drop_zero] at h0
      simp only [findFirstMatch, h0]
      exact ih i hi (fun k hk => hfirst (k + 1) (Nat.succ_lt_succ hk))

/-- C3 counterexample: on a text with two sourceMappingURL marker lines the
result comes from the *first* line (`first.map`), not the last (`second.map`),
refuting "takes its result from the last matching marker line". -/
theorem extractSourceMapUrl_not_last_marker :
    extractSourceMapUrl "//# sourceMappingURL=first.map\n//# sourceMappingURL=second.map" =
      some "first.map" ∧
    extractSourceMapUrl "//# sourceMappingURL=first.map\n//# sourceMappingURL=second.map" ≠
      some "second.map" := by
  constructor
  · decide
  · decide

/-- C3 (amended): for every source text containing more than one
sourceMappingURL marker (witnessed by matches at two positions `i < j`),
`extractSourceMapUrl` takes its result from the *first* matching marker. -/
theorem extractSourceMapUrl_first_of_many_markers (text : String) (i j : Nat)
    (v w : List Char) (_hij : i < j)
    (hi : matchMarkerAt (text.toList.drop i) = some v)
    (hfirst : ∀ k, k < i → matchMarkerAt (text.toList.drop k) = none)
    (_hj : matchMarkerAt (text.toList.drop j) = some w) :
    extractSourceMapUrl text = some (String.mk (markerTransform v)) := by
  unfold extractSourceMapUrl
  rw [findFirstMatch_eq_first text.toList i v hi hfirst]

/-- Witness for `extractSourceMapUrl_first_of_many_markers` at the concrete
two-marker text: markers at positions 0 and 31, result `first.map`. -/
theorem extractSourceMapUrl_first_of_many_markers_witness :
    extractSourceMapUrl "//# sourceMappingURL=first.map\n//# sourceMappingURL=second.map" =
      some "first.map" := by
  have h := extractSourceMapUrl_first_of_many_markers
    "//# sourceMappingURL=first.map\n//# sourceMappingURL=second.map" 0 31
    "first.map".toList "second.map".toList (by decide) (by decide)
    (fun k hk => absurd hk (Nat.not_lt_zero k)) (by decide)
  rw [h]
  decide

/-- C4 counterexample: when the captured value contains `base64,` twice, the
source's `split('base64,')[1]` yields only the segment *between* the two
occurrences (`"A"`), not the whole portion after the first marker
(`"Abase64,B"`), refuting the claim's "returns only the portion after that
marker" reading. -/
theorem extractSourceMapUrl_split_not_suffix :
    extractSourceMapUrl "//# sourceMappingURL=base64,Abase64,B" = some "A" ∧
    extractSourceMapUrlClaimed "//# sourceMappingURL=base64,Abase64,B" = some "Abase64,B" ∧
    extractSourceMapUrl "//# sourceMappingURL=base64,Abase64,B" ≠
      extractSourceMapUrlClaimed "//# sourceMappingURL=base64,Abase64,B" := by
  refine ⟨by decide, by decide, by decide⟩

/-- C4 (amended): `extractSourceMapUrl` returns the value of the first
`//#`/`//@` sourceMappingURL marker found scanning top-to-bottom, absent when
no position matches; when the value contains `base64,` the result is the
segment between the first occurrence of `base64,` and the next one
(`split('base64,')[1]`), which is the whole portion after the marker whenever
`base64,` occurs only once; otherwise the value is returned verbatim. -/
theorem extractSourceMapUrl_spec_characterization (text : String) :
    ((∀ i, matchMarkerAt (text.toList.drop i) = none) → extractSourceMapUrl text = none) ∧
    (∀ i v, matchMarkerAt (text.toList.drop i) = some v →
      (∀ k, k < i → matchMarkerAt (text.toList.drop k) = none) →
      extractSourceMapUrl text = some (String.mk (markerTransform v))) ∧
    (∀ v, firstOcc base64Marker v = none → markerTransform v = v) ∧
    (∀ v i, firstOcc base64Marker v = some i →
      firstOcc base64Marker (v.drop (i + base64Marker.length)) = none →
      markerTransform v = v.drop (i + base64Marker.length)) := by
  refine ⟨?_, ?_, ?_, ?_⟩
  · intro h
    unfold extractSourceMapUrl
    rw [findFirstMatch_eq_none text.toList h]
  · intro i v hi hfirst
    unfold extractSourceMapUrl
    rw [findFirstMatch_eq_first text.toList i v hi hfirst]
  · intro v h
    simp [markerTransform, h]
  · intro v i h hrest
    simp [markerTransform, h, splitSecondOn, hrest]

/-- Witness for `extractSourceMapUrl_spec_characterization` at the spec's two
example inputs and a marker-free text. -/
theorem extractSourceMapUrl_spec_characterization_witness :
    extractSourceMapUrl "// code\n//# sourceMappingURL=abc.map" = some "abc.map" ∧
    extractSourceMapUrl "//# sourceMappingURL=data:application/json;base64,eyJ9" = some "eyJ9" ∧
    extractSourceMapUrl "no marker here" = none := by
  refine ⟨?_, ?_, ?_⟩
  · have h := (extractSourceMapUrl_spec_characterization
      "// code\n//# sourceMappingURL=abc.map").2.1 8 "abc.map".toList
      (by decide) (by decide)
    rw [h]
    decide
  · have h := (extractSourceMapUrl_spec_characterization
      "//# sourceMappingURL=data:application/json;base64,eyJ9").2.1 0
      "data:application/json;base64,eyJ9".toList (by decide) (by decide)
    rw [h]
    decide
  · have hb : ∀ i, i < "no marker here".toList.length →
        matchMarkerAt ("no marker here".toList.drop i) = none := by decide
    exact (extractSourceMapUrl_spec_characterization "no marker here").1 (fun i =>
      if h : i < "no marker here".toList.length then hb i h
      else matchMarkerAt_drop_of_le _ i (Nat.le_of_not_lt h))

/-! ### C1: empty call-frame list -/

/-- C1 counterexample: on a pause event with an empty call-frame list,
`handleBreakpointHit` throws a `TypeError` (`callFrames[0]` is `undefined`,
so `.scopeChain` faults) instead of returning an empty snapshot. -/
theorem handleBreakpointHit_empty_frames_throws :
    handleBreakpointHit emptySession ⟨⟨[]⟩⟩ = .error JSError.typeError ∧
    handleBreakpointHit emptySession ⟨⟨[]⟩⟩ ≠ .ok ([], []) := by
  exact ⟨rfl, by decide⟩

/-- C1 (amended): for every session and every pause event whose call-frame
list is empty, the scope extraction throws a `TypeError` rather than
returning any snapshot. -/
theorem handleBreakpointHit_empty_frames (session : Session) (event : BreakpointHitEvent)
    (h : event.params.callFrames = []) :
    handleBreakpointHit session event = .error JSError.typeError := by
  simp [handleBreakpointHit, h]

/-- Witness for `handleBreakpointHit_empty_frames` at a concrete session and
the empty-frame event. -/
theorem handleBreakpointHit_empty_frames_witness :
    handleBreakpointHit emptySession ⟨⟨[]⟩⟩ = .error JSError.typeError :=
  handleBreakpointHit_empty_frames emptySession ⟨⟨[]⟩⟩ rfl

/-! ### C9: the one-shot waiter -/

/-- C9: a call to `getNextPausedEvent` registers exactly one listener; for
any nonempty sequence of pause events the session then emits, the returned
promise settles with the first event and with nothing else, and the
registration is removed at that first delivery (later events change
nothing). -/
theorem getNextPausedEvent_one_shot :
    listenerCount getNextPausedEvent = 1 ∧
    (∀ ev evs, (emitAll getNextPausedEvent (ev :: evs)).promise.settledWith = some ev ∧
      listenerCount (emitAll getNextPausedEvent (ev :: evs)) = 0) := by
  have hstay : ∀ (l : List BreakpointHitEvent) (st : WaiterState),
      st.onceRegistered = false → emitAll st l = st := by
    intro l
    induction l with
    | nil => intro st _; rfl
    | cons e t ih =>
      intro st h
      have hstep : emitPaused st e = st := by simp [emitPaused, h]
      show List.foldl emitPaused (emitPaused st e) t = st
      rw [hstep]
      exact ih st h
  refine ⟨rfl, fun ev evs => ?_⟩
  have h1 : emitAll getNextPausedEvent (ev :: evs) = emitAll ⟨false, ⟨some ev⟩⟩ evs := rfl
  rw [h1, hstay evs ⟨false, ⟨some ev⟩⟩ rfl]
  exact ⟨rfl, rfl⟩

/-! ### C5 and C2: the script resolver -/

/-- C5: the resolver returns one entry per requested id, in request order,
for every session and id list, and the empty request list yields the empty
result. The embedding of `resolveMultipleScriptIds` is a total function (the
source catches at every level), so no exception escapes the boundary. -/
theorem resolveMultipleScriptIds_shape (session : ScriptSession) (ids : List String) :
    (resolveMultipleScriptIds session ids).length = ids.length ∧
    (∀ i : Nat, (resolveMultipleScriptIds session ids)[i]? =
      (ids[i]?).map (scriptLookup session)) ∧
    resolveMultipleScriptIds session [] = [] :=
  ⟨List.length_map _ _, fun i => List.getElem?_map _ _ _, rfl⟩

/-- C2 counterexample: with a session failing only for `"b"`, the middle
entry of the result is the `undefined` pushed by the loop (`absent`), not a
failure record referencing `"b"`: the `catch` branch that would build
`{ scriptId, filePath }` is unreachable because `resolveScriptIdToFile`
catches every rejection internally. -/
theorem resolveMultipleScriptIds_absent_not_failure :
    resolveMultipleScriptIds demoScriptSession ["a", "b", "c"] =
      [.resolved "source of a", .absent, .resolved "source of c"] ∧
    ((resolveMultipleScriptIds demoScriptSession ["a", "b", "c"]).getD 1
        ScriptLookupResult.absent).isFailureFor "b" = false := by
  exact ⟨by decide, by decide⟩

/-- C2 (amended): when the session's lookup fails for exactly the id at index
`j` and succeeds for every other index, the result keeps the input length and
order, every non-failing index holds the resolved source, and index `j`
holds the absent result (`undefined`) left by the caught failure; no entry is
ever a failure record. -/
theorem resolveMultipleScriptIds_single_failure (session : ScriptSession)
    (ids : List String) (j : Nat) (e : String) (hj : j < ids.length)
    (hfail : session.getScriptSource (ids.getD j "") = .error e)
    (hok : ∀ i, i < ids.length → i ≠ j →
      isOkB (session.getScriptSource (ids.getD i "")) = true) :
    (resolveMultipleScriptIds session ids).length = ids.length ∧
    (resolveMultipleScriptIds session ids).getD j ScriptLookupResult.absent =
      ScriptLookupResult.absent ∧
    (∀ i, i < ids.length → i ≠ j → ∃ src,
      (resolveMultipleScriptIds session ids).getD i ScriptLookupResult.absent =
        ScriptLookupResult.resolved src ∧
      session.getScriptSource (ids.getD i "") = .ok src) ∧
    (∀ entry ∈ resolveMultipleScriptIds session ids, ∀ sid msg,
      entry ≠ ScriptLookupResult.failureRecord sid msg) := by
  have hgetD : ∀ (i : Nat), i < ids.length →
      (resolveMultipleScriptIds session ids).getD i ScriptLookupResult.absent =
        scriptLookup session (ids.getD i "") := by
    intro i hi
    have hi' : i < (resolveMultipleScriptIds session ids).length := by
      simpa [resolveMultipleScriptIds] using hi
    rw [List.getD_eq_getElem _ _ hi', List.getD_eq_getElem _ _ hi]
    simp [resolveMultipleScriptIds]
  refine ⟨List.length_map _ _, ?_, ?_, ?_⟩
  · rw [hgetD j hj]
    unfold scriptLookup resolveScriptIdToFile
    rw [hfail]
  · intro i hi hne
    have h := hok i hi hne
    cases hsrc : session.getScriptSource (ids.getD i "") with
    | error err => rw [hsrc] at h; simp [isOkB] at h
    | ok src =>
      refine ⟨src, ?_, rfl⟩
      rw [hgetD i hi]
      unfold scriptLookup resolveScriptIdToFile
      rw [hsrc]
  · intro entry hmem sid msg
    simp only [resolveMultipleScriptIds, List.mem_map] at hmem
    obtain ⟨id, _, hid⟩ := hmem
    intro hcontra
    rw [← hid] at hcontra
    unfold scriptLookup at hcontra
    cases h : resolveScriptIdToFile session id with
    | some r => rw [h] at hcontra; exact ScriptLookupResult.noConfusion hcontra
    | none => rw [h] at hcontra; exact ScriptLookupResult.noConfusion hcontra

/-- Witness for `resolveMultipleScriptIds_single_failure` at the session
that fails only for `"b"` and the request `["a", "b", "c"]`. -/
theorem resolveMultipleScriptIds_single_failure_witness :
    (resolveMultipleScriptIds demoScriptSession ["a", "b", "c"]).length = 3 ∧
    (resolveMultipleScriptIds demoScriptSession ["a", "b", "c"]).getD 1
      ScriptLookupResult.absent = ScriptLookupResult.absent := by
  have h := resolveMultipleScriptIds_single_failure demoScriptSession ["a", "b", "c"] 1
    "boom" (by decide) (by decide) (by decide)
  exact ⟨h.1, h.2.1⟩

/-! ### Record and scope-walk lemmas -/

theorem recordGet_map_overwrite (r : VarRecord) (n : String) (v : JSValue)
    (h : r.any (fun p => p.1 == n) = true) :
    recordGet (r.map fun p => if p.1 == n then (n, v) else p) n = some v := by
  induction r with
  | nil => simp at h
  | cons a t ih =>
    by_cases ha : (a.1 == n) = true
    · simp [recordGet, List.find?, ha]
    · have ht : t.any (fun p => p.1 == n) = true := by simpa [ha] using h
      simpa [recordGet, List.find?, ha] using ih ht

theorem recordGet_append_fresh (r : VarRecord) (n : String) (v : JSValue)
    (h : ∀ p ∈ r, (p.1 == n) = false) :
    recordGet (r ++ [(n, v)]) n = some v := by
  induction r with
  | nil => simp [recordGet, List.find?]
  | cons a t ih =>
    have ha := h a (by simp)
    simpa [recordGet, List.find?, ha] using
      ih (fun p hp => h p (List.mem_cons_of_mem a hp))

theorem recordGet_recordSet (r : VarRecord) (n : String) (v : JSValue) :
    recordGet (recordSet r n v) n = some v := by
  unfold recordSet
  by_cases h : (r.any fun p => p.1 == n) = true
  · rw [if_pos h]
    exact recordGet_map_overwrite r n v h
  · rw [if_neg h]
    refine recordGet_append_fresh r n v (fun p hp => ?_)
    by_contra hc
    exact h (List.any_eq_true.mpr ⟨p, hp, by simpa using hc⟩)

theorem processScopes_cons_closure_ok (session : Session) (s : Scope) (rest : List Scope)
    (acc : VarRecord) (logs : List LogEntry) (r : GetPropertiesResult)
    (hs : s.type = "closure")
    (hpost : session.postGetProperties ⟨s.object.objectId, false, false, false⟩ = .ok r) :
    processScopes session acc logs (s :: rest) =
      processScopes session (processProps r.result acc) logs rest := by
  simp [processScopes, hs, hpost]

theorem processScopes_cons_closure_err (session : Session) (s : Scope) (rest : List Scope)
    (acc : VarRecord) (logs : List LogEntry) (e : String)
    (hs : s.type = "closure")
    (hpost : session.postGetProperties ⟨s.object.objectId, false, false, false⟩ = .error e) :
    processScopes session acc logs (s :: rest) =
      processScopes session acc (logs ++ [⟨"Failed to get properties", e⟩]) rest := by
  simp [processScopes, hs, hpost]

theorem processScopes_cons_other (session : Session) (s : Scope) (rest : List Scope)
    (acc : VarRecord) (logs : List LogEntry)
    (hs : (s.type == "closure") = false) :
    processScopes session acc logs (s :: rest) = processScopes session acc logs rest := by
  simp [processScopes, hs]

theorem processScopes_append (session : Session) (l1 l2 : List Scope) :
    ∀ (acc : VarRecord) (logs : List LogEntry),
      processScopes session acc logs (l1 ++ l2) =
        processScopes session (processScopes session acc logs l1).1
          (processScopes session acc logs l1).2 l2 := by
  induction l1 with
  | nil => intro acc logs; rfl
  | cons s t ih =>
    intro acc logs
    by_cases hs : s.type = "closure"
    · cases hpost : session.postGetProperties ⟨s.object.objectId, false, false, false⟩ with
      | ok r =>
        rw [List.cons_append, processScopes_cons_closure_ok session s (t ++ l2) acc logs r hs hpost,
          processScopes_cons_closure_ok session s t acc logs r hs hpost]
        exact ih (processProps r.result acc) logs
      | error e =>
        rw [List.cons_append, processScopes_cons_closure_err session s (t ++ l2) acc logs e hs hpost,
          processScopes_cons_closure_err session s t acc logs e hs hpost]
        exact ih acc (logs ++ [⟨"Failed to get properties", e⟩])
    · have hb : (s.type == "closure") = false := by simpa using hs
      rw [List.cons_append, processScopes_cons_other session s (t ++ l2) acc logs hb,
        processScopes_cons_other session s t acc logs hb]
      exact ih acc logs

theorem processScopes_fst_logs_irrel (session : Session) (l : List Scope) :
    ∀ (acc : VarRecord) (logs logs' : List LogEntry),
      (processScopes session acc logs l).1 = (processScopes session acc logs' l).1 := by
  induction l with
  | nil => intro acc logs logs'; rfl
  | cons s t ih =>
    intro acc logs logs'
    by_cases hs : s.type = "closure"
    · cases hpost : session.postGetProperties ⟨s.object.objectId, false, false, false⟩ with
      | ok r =>
        rw [processScopes_cons_closure_ok session s t acc logs r hs hpost,
          processScopes_cons_closure_ok session s t acc logs' r hs hpost]
        exact ih (processProps r.result acc) logs logs'
      | error e =>
        rw [processScopes_cons_closure_err session s t acc logs e hs hpost,
          processScopes_cons_closure_err session s t acc logs' e hs hpost]
        exact ih acc (logs ++ [⟨"Failed to get properties", e⟩])
          (logs' ++ [⟨"Failed to get properties", e⟩])
    · have hb : (s.type == "closure") = false := by simpa using hs
      rw [processScopes_cons_other session s t acc logs hb,
        processScopes_cons_other session s t acc logs' hb]
      exact ih acc logs logs'

theorem processScopes_snd_extends (session : Session) (l : List Scope) :
    ∀ (acc : VarRecord) (logs : List LogEntry),
      ∃ tail, (processScopes session acc logs l).2 = logs ++ tail := by
  induction l with
  | nil => intro acc logs; exact ⟨[], by simp [processScopes]⟩
  | cons s t ih =>
    intro acc logs
    by_cases hs : s.type = "closure"
    · cases hpost : session.postGetProperties ⟨s.object.objectId, false, false, false⟩ with
      | ok r =>
        rw [processScopes_cons_closure_ok session s t acc logs r hs hpost]
        exact ih (processProps r.result acc) logs
      | error e =>
        rw [processScopes_cons_closure_err session s t acc logs e hs hpost]
        obtain ⟨tail, ht⟩ := ih acc (logs ++ [⟨"Failed to get properties", e⟩])
        exact ⟨⟨"Failed to get properties", e⟩ :: tail, by rw [ht, List.append_assoc]; rfl⟩
    · have hb : (s.type == "closure") = false := by simpa using hs
      rw [processScopes_cons_other session s t acc logs hb]
      exact ih acc logs

/-! ### C10: only primitive-valued descriptors are inserted -/

/-- C10: a descriptor is inserted into the snapshot only when its `value`
object carries a defined primitive `value` field; a descriptor holding a
remote object reference without a primitive value (an object- or
function-valued variable) is skipped, and in particular an event whose only
closure scope yields only such a descriptor produces an empty snapshot. -/
theorem processProps_requires_primitive_value (props : List PropertyDescriptor)
    (acc : VarRecord) (p : PropertyDescriptor) (ro : RemoteObject) (pv : JSValue) :
    (p.value = none → processProps (p :: props) acc = processProps props acc) ∧
    (p.value = some ro → ro.value = none →
      processProps (p :: props) acc = processProps props acc) ∧
    (p.value = some ro → ro.value = some pv →
      processProps (p :: props) acc = processProps props (recordSet acc p.name pv)) ∧
    (∀ (session : Session) (s : Scope), s.type = "closure" →
      session.postGetProperties ⟨s.object.objectId, false, false, false⟩ = .ok ⟨[p]⟩ →
      p.value = some ro → ro.value = none →
      handleBreakpointHit session ⟨⟨[⟨[s]⟩]⟩⟩ = .ok ([], [])) := by
  refine ⟨?_, ?_, ?_, ?_⟩
  · intro h; simp [processProps, h]
  · intro h hv; simp [processProps, h, hv]
  · intro h hv; simp [processProps, h, hv]
  · intro session s hstype hpost hval hro
    simp [handleBreakpointHit, processScopes, hstype, hpost, processProps, hval, hro]

/-- Witness for `processProps_requires_primitive_value`: a session whose only
property is an object reference (`objectId` but no primitive value) yields an
empty snapshot. -/
theorem processProps_requires_primitive_value_witness :
    handleBreakpointHit objectPropSession
      ⟨⟨[⟨[⟨"closure", ⟨some "obj1", none⟩⟩]⟩]⟩⟩ = .ok ([], []) :=
  (processProps_requires_primitive_value [] [] ⟨"f", some ⟨some "obj1", none⟩⟩
    ⟨some "obj1", none⟩ JSValue.null).2.2.2 objectPropSession
    ⟨"closure", ⟨some "obj1", none⟩⟩ rfl rfl rfl rfl

/-! ### C7: per-scope failure recovery -/

/-- C7: a closure scope whose property request fails is logged and skipped:
the failure changes nothing in the snapshot (it equals the snapshot computed
with that scope removed from the chain), later scopes are still processed,
the log records the failure, and the extractor still returns a successful
result for every event with a non-empty frame list. -/
theorem handleBreakpointHit_scope_failure_recovery (session : Session)
    (pre post : List Scope) (s : Scope) (e : String)
    (hs : s.type = "closure")
    (he : session.postGetProperties ⟨s.object.objectId, false, false, false⟩ = .error e) :
    (∀ (acc : VarRecord) (logs : List LogEntry),
      (processScopes session acc logs (pre ++ s :: post)).1 =
        (processScopes session acc logs (pre ++ post)).1) ∧
    (∀ (acc : VarRecord) (logs : List LogEntry),
      (⟨"Failed to get properties", e⟩ : LogEntry) ∈
        (processScopes session acc logs (pre ++ s :: post)).2) ∧
    (∀ (event : BreakpointHitEvent) (frame : CallFrame) (frest : List CallFrame),
      event.params.callFrames = frame :: frest →
      ∃ out, handleBreakpointHit session event = .ok out) := by
  refine ⟨?_, ?_, ?_⟩
  · intro acc logs
    rw [processScopes_append session pre (s :: post) acc logs,
      processScopes_append session pre post acc logs,
      processScopes_cons_closure_err session s post _ _ e hs he]
    exact processScopes_fst_logs_irrel session post _ _ _
  · intro acc logs
    rw [processScopes_append session pre (s :: post) acc logs,
      processScopes_cons_closure_err session s post _ _ e hs he]
    obtain ⟨tail, ht⟩ := processScopes_snd_extends session post
      (processScopes session acc logs pre).1
      ((processScopes session acc logs pre).2 ++ [⟨"Failed to get properties", e⟩])
    rw [ht]
    simp
  · intro event frame frest hf
    exact ⟨processScopes session [] [] frame.scopeChain, by simp [handleBreakpointHit, hf]⟩

/-- Witness for `handleBreakpointHit_scope_failure_recovery`: the session
failing for object id `"bad"`, a chain with the failing scope followed by a
working one. -/
theorem handleBreakpointHit_scope_failure_recovery_witness :
    (⟨"Failed to get properties", "network error"⟩ : LogEntry) ∈
      (processScopes failingPropSession [] []
        ([] ++ ⟨"closure", ⟨some "bad", none⟩⟩ :: [⟨"closure", ⟨some "ok1", none⟩⟩])).2 ∧
    (processScopes failingPropSession [] []
        ([] ++ ⟨"closure", ⟨some "bad", none⟩⟩ :: [⟨"closure", ⟨some "ok1", none⟩⟩])).1 =
      (processScopes failingPropSession [] [] ([] ++ [⟨"closure", ⟨some "ok1", none⟩⟩])).1 := by
  have h := handleBreakpointHit_scope_failure_recovery failingPropSession []
    [⟨"closure", ⟨some "ok1", none⟩⟩] ⟨"closure", ⟨some "bad", none⟩⟩ "network error"
    rfl (by decide)
  exact ⟨h.2.1 [] [], h.1 [] []⟩

/-! ### C6: the snapshot is the spec's last-write-wins merge -/

theorem processProps_eq_foldl (props : List PropertyDescriptor) :
    ∀ acc : VarRecord, processProps props acc = props.foldl specMergeStep acc := by
  induction props with
  | nil => intro acc; rfl
  | cons p rest ih =>
    intro acc
    cases hp : p.value with
    | none =>
      rw [List.foldl_cons]
      have hstep : specMergeStep acc p = acc := by
        simp [specMergeStep, descriptorCaptured, hp]
      rw [hstep, ← ih acc]
      simp [processProps, hp]
    | some v =>
      cases hv : v.value with
      | none =>
        rw [List.foldl_cons]
        have hstep : specMergeStep acc p = acc := by
          simp [specMergeStep, descriptorCaptured, hp, hv]
        rw [hstep, ← ih acc]
        simp [processProps, hp, hv]
      | some pv =>
        rw [List.foldl_cons]
        have hstep : specMergeStep acc p = recordSet acc p.name pv := by
          simp [specMergeStep, descriptorCaptured, hp, hv]
        rw [hstep, ← ih (recordSet acc p.name pv)]
        simp [processProps, hp, hv]

theorem processScopes_eq_spec (session : Session) (scopes : List Scope)
    (hok : ∀ s ∈ scopes, s.type = "closure" →
      isOkB (session.postGetProperties ⟨s.object.objectId, false, false, false⟩) = true) :
    ∀ (acc : VarRecord) (logs : List LogEntry),
      processScopes session acc logs scopes =
        ((specCloseDescs session scopes).foldl specMergeStep acc, logs) := by
  induction scopes with
  | nil => intro acc logs; rfl
  | cons s rest ih =>
    intro acc logs
    have ihrest := ih (fun t ht h => hok t (List.mem_cons_of_mem s ht) h)
    by_cases hs : s.type = "closure"
    · have hok_s := hok s (List.mem_cons_self s rest) hs
      cases hpost : session.postGetProperties ⟨s.object.objectId, false, false, false⟩ with
      | error e => rw [hpost] at hok_s; simp [isOkB] at hok_s
      | ok r =>
        have hspec : specCloseDescs session (s :: rest) =
            r.result ++ specCloseDescs session rest := by
          unfold specCloseDescs
          simp [List.filter_cons, hs, hpost]
        rw [processScopes_cons_closure_ok session s rest acc logs r hs hpost,
          ihrest (processProps r.result acc) logs, hspec, List.foldl_append,
          ← processProps_eq_foldl r.result acc]
    · have hb : (s.type == "closure") = false := by simpa using hs
      have hspec : specCloseDescs session (s :: rest) = specCloseDescs session rest := by
        unfold specCloseDescs
        simp [List.filter_cons, hb]
      rw [processScopes_cons_other session s rest acc logs hb, ihrest acc logs, hspec]

/-- C6: for a pause event with a non-empty frame list whose closure-scope
property requests all succeed, the snapshot is exactly the last-write-wins
merge, in scope-chain order, of those descriptors of the innermost frame's
closure scopes whose captured value is defined (absent-valued descriptors are
never inserted, by the shape of `specMergeStep`); and reading a name after an
overwrite yields the later scope's value. -/
theorem handleBreakpointHit_eq_specSnapshot (session : Session)
    (event : BreakpointHitEvent) (frame : CallFrame) (rest : List CallFrame)
    (hframes : event.params.callFrames = frame :: rest)
    (hok : ∀ s ∈ frame.scopeChain, s.type = "closure" →
      isOkB (session.postGetProperties ⟨s.object.objectId, false, false, false⟩) = true) :
    handleBreakpointHit session event = .ok (specSnapshot session frame.scopeChain, []) ∧
    (∀ (r : VarRecord) (n : String) (v : JSValue), recordGet (recordSet r n v) n = some v) := by
  refine ⟨?_, fun r n v => recordGet_recordSet r n v⟩
  unfold handleBreakpointHit
  rw [hframes]
  show Except.ok (processScopes session [] [] frame.scopeChain) = _
  rw [processScopes_eq_spec session frame.scopeChain hok [] []]
  rfl

/-- Witness for `handleBreakpointHit_eq_specSnapshot`: two closure scopes
(around a skipped global scope) where the later scope overwrites `x`; the
snapshot holds the later value `3`, keeps `y`, and omits the object-valued
`z`. -/
theorem handleBreakpointHit_eq_specSnapshot_witness :
    handleBreakpointHit overrideSession
      ⟨⟨[⟨[⟨"closure", ⟨some "s1", none⟩⟩, ⟨"global", ⟨some "g", none⟩⟩,
          ⟨"closure", ⟨some "s2", none⟩⟩]⟩]⟩⟩ =
      .ok ([("x", JSValue.num 3), ("y", JSValue.num 2)], []) := by
  have h := (handleBreakpointHit_eq_specSnapshot overrideSession
    ⟨⟨[⟨[⟨"closure", ⟨some "s1", none⟩⟩, ⟨"global", ⟨some "g", none⟩⟩,
        ⟨"closure", ⟨some "s2", none⟩⟩]⟩]⟩⟩
    ⟨[⟨"closure", ⟨some "s1", none⟩⟩, ⟨"global", ⟨some "g", none⟩⟩,
      ⟨"closure", ⟨some "s2", none⟩⟩]⟩ [] rfl (by decide)).1
  rw [h]
  decide


/-! ### C8: base64 round-trip, forgiving decoding, error absorption -/

theorem decodeSextet_sextetChar : ∀ n, n < 64 → decodeSextet (sextetChar n) = some n := by
  decide

theorem decodeSextet_pad : decodeSextet '=' = none := by decide

theorem decodeBase64_encodeBase64 (bs : List Nat) (h : ∀ b ∈ bs, b < 256) :
    decodeBase64 (encodeBase64 bs) = bs := by
  induction bs using encodeBase64.induct with
  | case1 => rfl
  | case2 a =>
    have ha : a < 256 := h a (by simp)
    have h1 : a / 4 < 64 := by omega
    have h2 : a % 4 * 16 < 64 := by omega
    show decodeBase64 [sextetChar (a / 4), sextetChar (a % 4 * 16), '=', '='] = [a]
    unfold decodeBase64
    simp only [List.filterMap_cons, decodeSextet_sextetChar _ h1, decodeSextet_sextetChar _ h2,
      decodeSextet_pad, List.filterMap_nil]
    simp [sextetsToBytes]
    omega
  | case3 a b =>
    have ha : a < 256 := h a (by simp)
    have hb : b < 256 := h b (by simp)
    have h1 : a / 4 < 64 := by omega
    have h2 : a % 4 * 16 + b / 16 < 64 := by omega
    have h3 : b % 16 * 4 < 64 := by omega
    show decodeBase64
      [sextetChar (a / 4), sextetChar (a % 4 * 16 + b / 16), sextetChar (b % 16 * 4), '='] =
      [a, b]
    unfold decodeBase64
    simp only [List.filterMap_cons, decodeSextet_sextetChar _ h1, decodeSextet_sextetChar _ h2,
      decodeSextet_sextetChar _ h3, decodeSextet_pad, List.filterMap_nil]
    simp [sextetsToBytes]
    omega
  | case4 a b c rest ih =>
    have ha : a < 256 := h a (by simp)
    have hb : b < 256 := h b (by simp)
    have hc : c < 256 := h c (by simp)
    have hrest := ih (fun x hx => h x (by simp [hx]))
    have h1 : a / 4 < 64 := by omega
    have h2 : a % 4 * 16 + b / 16 < 64 := by omega
    have h3 : b % 16 * 4 + c / 64 < 64 := by omega
    have h4 : c % 64 < 64 := by omega
    show decodeBase64 (sextetChar (a / 4) :: sextetChar (a % 4 * 16 + b / 16) ::
      sextetChar (b % 16 * 4 + c / 64) :: sextetChar (c % 64) :: encodeBase64 rest) =
      a :: b :: c :: rest
    unfold decodeBase64 at hrest ⊢
    simp only [List.filterMap_cons, decodeSextet_sextetChar _ h1, decodeSextet_sextetChar _ h2,
      decodeSextet_sextetChar _ h3, decodeSextet_sextetChar _ h4]
    simp only [sextetsToBytes, hrest]
    simp
    omega

theorem bytesToString_stringToBytes (s : String) : bytesToString (stringToBytes s) = s := by
  unfold bytesToString stringToBytes
  rw [List.map_map]
  have hcomp : (Char.ofNat ∘ Char.toNat) = id := funext (fun c => Char.ofNat_toNat c)
  rw [hcomp, List.map_id]
  cases s
  rfl

theorem getSourceMapJSON_parse (codec : JsonCodec) (input : String) :
    getSourceMapJSON codec input =
      match codec.parse (bytesToString (decodeBase64 input.toList)) with
      | .ok doc => some doc
      | .error _ => none := rfl

theorem encodeToBase64_toList (s : String) :
    (encodeToBase64 s).toList = encodeBase64 (stringToBytes s) := rfl

/-- C8 counterexample: `"e30"` is not valid base64 (no full four-character
group), yet the program does not return an absent result for it:
`Buffer.from` forgivingly decodes it to `"{}"`, which parses, so
`getSourceMapJSON` returns the parsed document. -/
theorem getSourceMapJSON_forgiving_decode :
    isCanonicalBase64 "e30".toList = false ∧
    getSourceMapJSON miniCodec "e30" = some (Json.obj []) ∧
    getSourceMapJSON miniCodec "e30" ≠ none := by
  have h2 : getSourceMapJSON miniCodec "e30" = some (Json.obj []) := rfl
  exact ⟨by decide, h2, by rw [h2]; exact fun hc => Option.noConfusion hc⟩

/-- C8 (amended): encoding a document's serialized text to base64 and
passing it to `getSourceMapJSON` yields the equal document, for every codec
whose parse inverts its stringify at that document (with the text a byte
sequence). The base64 decoding step itself never fails — `Buffer.from`
ignores non-alphabet characters and decodes partial trailing groups, so an
invalid-base64 input is not rejected and may still yield a document — and
the result is absent exactly when parsing the decoded text fails; the
embedding is a total function, so nothing is raised past the boundary. -/
theorem getSourceMapJSON_round_trip (codec : JsonCodec) (doc : Json)
    (hparse : codec.parse (codec.stringify doc) = .ok doc)
    (hbytes : ∀ b ∈ stringToBytes (codec.stringify doc), b < 256) :
    getSourceMapJSON codec (encodeToBase64 (codec.stringify doc)) = some doc ∧
    (∀ input e, codec.parse (bytesToString (decodeBase64 input.toList)) = .error e →
      getSourceMapJSON codec input = none) ∧
    (∀ input, getSourceMapJSON codec input = none ∨
      ∃ d, getSourceMapJSON codec input = some d) := by
  refine ⟨?_, ?_, ?_⟩
  · rw [getSourceMapJSON_parse, encodeToBase64_toList,
      decodeBase64_encodeBase64 _ hbytes, bytesToString_stringToBytes, hparse]
  · intro input e hp
    rw [getSourceMapJSON_parse, hp]
  · intro input
    cases hg : getSourceMapJSON codec input with
    | none => exact Or.inl rfl
    | some d => exact Or.inr ⟨d, rfl⟩

/-- Witness for `getSourceMapJSON_round_trip`: the miniature codec at the
document `{}`, and the input `"!!!"` whose decoded text fails to parse. -/
theorem getSourceMapJSON_round_trip_witness :
    getSourceMapJSON miniCodec (encodeToBase64 (miniCodec.stringify (Json.obj []))) =
      some (Json.obj []) ∧
    getSourceMapJSON miniCodec "!!!" = none := by
  have h := getSourceMapJSON_round_trip miniCodec (Json.obj []) rfl (by decide)
  exact ⟨h.1, h.2.1 "!!!" "parse error" rfl⟩

end Closure
